import Mathlib

/-!
Formal model of `src/convert_for_itunes.py`: the batch conversion pipeline
that converts an album of Ogg Vorbis / FLAC / MP3 files to MP3 for iTunes.

The embedding is shallow: POSIX path manipulation (`os.path.basename`,
`os.path.splitext`, `os.path.join`) is modelled on `List Char`; the tag
translation `copy_tags` is modelled as a map from generic source fields to
ID3 frames keyed the way mutagen keys them (plain frames by frame id, TXXX
by description, COMM by language); the external-process pipeline
(`calculate_gain`, the three transcode strategies, `convert_for_itunes`,
`main`) is modelled as a deterministic trace of events parameterised by an
environment that decides format detection and external-tool success.
-/

/-! ## POSIX path model (os.path.basename / splitext / join on POSIX) -/

/-- Characters after the last '/' — `os.path.basename` for POSIX paths. -/
def basenameL (l : List Char) : List Char :=
  (l.reverse.takeWhile (fun c => c != '/')).reverse

/-- `os.path.splitext` restricted to a path component without '/':
split off the extension at the last '.', unless every character before
that dot is itself a dot (so leading dots never start an extension). -/
def splitextBase (b : List Char) : List Char × List Char :=
  let extLen := (b.reverse.takeWhile (fun c => c != '.')).length
  if extLen = b.length then (b, [])
  else if (b.take (b.length - extLen - 1)).all (fun c => c == '.') then (b, [])
  else (b.take (b.length - extLen - 1), b.drop (b.length - extLen - 1))

/-- `os.path.splitext` on a full POSIX path: only dots after the last '/'
count. -/
def splitextL (l : List Char) : List Char × List Char :=
  let b := basenameL l
  let p := splitextBase b
  (l.take (l.length - b.length) ++ p.1, p.2)

/-- `os.path.join a b` for POSIX paths (two-argument case). -/
def joinL (a b : List Char) : List Char :=
  if b.head? = some '/' then b
  else if a = [] ∨ a.getLast? = some '/' then a ++ b
  else a ++ '/' :: b

/-- `get_mp3_file_path` (convert_for_itunes.py lines 43-47):
`os.path.join(output_directory, splitext(basename(src))[0] + ".mp3")`. -/
def get_mp3_file_path (source_file output_directory : String) : String :=
  let basename := basenameL source_file.data
  let filename := (splitextBase basename).1
  String.mk (joinL output_directory.data (filename ++ ".mp3".data))

/-- `EXCLUDING_FILE_EXTENSIONS` (line 27). -/
def EXCLUDING_FILE_EXTENSIONS : List String :=
  [".log", ".pdf", ".txt", ".jpg", ".png"]

/-- `os.path.splitext(path)[1].lower()` as used by `filter_paths`. -/
def lowerExt (p : String) : String :=
  String.mk ((splitextL p.data).2.map Char.toLower)

/-- `filter_paths` (lines 340-343): keep the paths whose lower-cased
extension is not one of the excluded non-audio extensions. -/
def filter_paths (all_paths : List String) : List String :=
  all_paths.filter (fun p => !(EXCLUDING_FILE_EXTENSIONS.contains (lowerExt p)))

/-! ## Tag translation model (`copy_tags`, lines 130-198)

mutagen's `ID3.add(frame)` assigns `tags[frame.HashKey] = frame`; the hash
key of a plain text frame is its frame id (so a second `TPE2` replaces the
first), a `TXXX` frame is keyed by its description and a `COMM` frame by
its description and language.  The ID3 tag is modelled as an association
list where a later `add` is consed on the front and lookup takes the first
(most recent) binding for a key, which is exactly the dictionary
semantics. -/

/-- mutagen hash keys of the frames written by `copy_tags`. -/
inductive FrameKey where
  | TIT2 | TALB | TPE1 | TPE2 | TCON | TDRC | TRCK | TPOS | TSRC
  | TXXX (desc : String)
  | COMM (lang : String)
deriving DecidableEq

/-- The two text encodings used by `copy_tags`. -/
inductive TagEncoding where
  | utf8 | latin1
deriving DecidableEq

/-- A tag frame: its encoding and its text value list. -/
structure Frame where
  enc : TagEncoding
  text : List String
deriving DecidableEq

/-- The generic source metadata (mutagen tag dictionary: lower-case field
name to list of string values). -/
structure SourceTags where
  fields : List (String × List String)

/-- `'key' in file_type`. -/
def SourceTags.hasField (t : SourceTags) (k : String) : Bool :=
  t.fields.any (fun p => p.1 == k)

/-- `file_type['key']` (empty when absent; `copy_tags` only reads present
keys). -/
def SourceTags.getField (t : SourceTags) (k : String) : List String :=
  match t.fields.find? (fun p => p.1 == k) with
  | some p => p.2
  | none => []

/-- Dictionary lookup on the frame map: the first (most recent) binding
wins, matching `tags[hash_key] = frame` overwrite semantics. -/
def findFrame : List (FrameKey × Frame) → FrameKey → Option Frame
  | [], _ => none
  | (k2, f) :: rest, k => if k2 = k then some f else findFrame rest k

/-- One `if 'key' in file_type: id3.add(Frame(...))` step of `copy_tags`. -/
def condAdd (c : Bool) (k : FrameKey) (f : Frame) (m : List (FrameKey × Frame)) :
    List (FrameKey × Frame) :=
  if c then (k, f) :: m else m

/-- `copy_tags` (lines 130-198): translate the generic source fields into
the freshly built ID3 frame map, in source order. -/
def copy_tags (t : SourceTags) : List (FrameKey × Frame) :=
  let m : List (FrameKey × Frame) := []
  let m := condAdd (t.hasField "title") FrameKey.TIT2 ⟨.utf8, t.getField "title"⟩ m
  let m := condAdd (t.hasField "album") FrameKey.TALB ⟨.utf8, t.getField "album"⟩ m
  let m := condAdd (t.hasField "artist") FrameKey.TPE1 ⟨.utf8, t.getField "artist"⟩ m
  let m := condAdd (t.hasField "album artist") FrameKey.TPE2 ⟨.utf8, t.getField "album artist"⟩ m
  let m := condAdd (t.hasField "albumartist") FrameKey.TPE2 ⟨.utf8, t.getField "albumartist"⟩ m
  let m := condAdd (t.hasField "genre") FrameKey.TCON ⟨.utf8, t.getField "genre"⟩ m
  let m := condAdd (t.hasField "date") FrameKey.TDRC ⟨.latin1, t.getField "date"⟩ m
  let m := condAdd (t.hasField "tracknumber") FrameKey.TRCK ⟨.latin1, t.getField "tracknumber"⟩ m
  let m := condAdd (t.hasField "track") (FrameKey.TXXX "TRACK") ⟨.utf8, t.getField "track"⟩ m
  let m := condAdd (t.hasField "tracknum") (FrameKey.TXXX "TRACKNUM") ⟨.utf8, t.getField "tracknum"⟩ m
  let m := condAdd (t.hasField "tracktotal") (FrameKey.TXXX "TRACKTOTAL") ⟨.utf8, t.getField "tracktotal"⟩ m
  let m := condAdd (t.hasField "discnumber") FrameKey.TPOS ⟨.latin1, t.getField "discnumber"⟩ m
  let m := condAdd (t.hasField "disctotal") (FrameKey.TXXX "DISCTOTAL") ⟨.utf8, t.getField "disctotal"⟩ m
  let m := condAdd (t.hasField "isrc") FrameKey.TSRC ⟨.utf8, t.getField "isrc"⟩ m
  let m := if t.hasField "comment" then
      (FrameKey.COMM "eng", (⟨.utf8, t.getField "comment"⟩ : Frame)) :: m
    else if t.hasField "description" then
      (FrameKey.COMM "eng", (⟨.utf8, t.getField "description"⟩ : Frame)) :: m
    else m
  let m := condAdd (t.hasField "description") (FrameKey.TXXX "DESCRIPTION") ⟨.utf8, t.getField "description"⟩ m
  let m := condAdd (t.hasField "itunes_cddb_1") (FrameKey.TXXX "ITUNES_CDDB_1") ⟨.utf8, t.getField "itunes_cddb_1"⟩ m
  m

/-! ## Pipeline model

The conversion pipeline runs external processes and touches the file
system.  It is modelled as a deterministic function from an environment
(what `mutagen.File` detects for each path and whether each external tool
invocation succeeds, i.e. exits with status 0) to a trace of events plus a
result: `Except.error` plays the role of a propagating
`ConversionFailedException` carrying its cause string. -/

/-- The three supported mime types (`SUPPORTED_MIME_TYPES`, lines 21-25). -/
inductive Mime where
  | oggVorbis | flac | mp3
deriving DecidableEq

/-- The environment a run is executed against. `detect` is `get_mime_type`
(pure and deterministic per path, as the spec requires); the `Ok` fields
tell whether an external tool run on the given path exits with status 0. -/
structure Env where
  detect : String → Option Mime
  gainOk : Mime → Bool
  decodeOk : String → Bool
  encodeOk : String → Bool

/-- Observable events of a run, in order of occurrence. -/
inductive Event where
  | mkdirOutput
  | gainTool (m : Mime) (files : List String)
  | decodeOgg (src : String)
  | decodeFlac (src : String)
  | encode (dst : String)
  | removeTemp (path : String)
  | tagCopy (src dst : String)
  | logSuccess (src : String)
  | logFailure (src cause : String)
deriving DecidableEq

/-- Whether an event is the gain-tool invocation. -/
def Event.isGainTool : Event → Bool
  | .gainTool _ _ => true
  | _ => false

/-- Whether an event belongs to the pre-transcode phase (directory
creation or gain calculation). -/
def Event.isPrePhase : Event → Bool
  | .mkdirOutput => true
  | .gainTool _ _ => true
  | _ => false

/-- Whether an event is a tag-translation step. -/
def Event.isTagCopy : Event → Bool
  | .tagCopy _ _ => true
  | _ => false

/-- Whether an event logs a successful conversion. -/
def Event.isLogSuccess : Event → Bool
  | .logSuccess _ => true
  | _ => false

/-- The per-job outcome an event records, if any: `(file, none)` for a
logged success, `(file, some cause)` for a logged failure. -/
def Event.outcomeOf : Event → Option (String × Option String)
  | .logSuccess s => some (s, none)
  | .logFailure s c => some (s, some c)
  | _ => none

/-- Loop body of `get_all_mime_type` (lines 63-83) after the first file:
every further file must detect to the first file's mime type. -/
def check_rest (env : Env) (m : Mime) : List String → Except String Unit
  | [] => Except.ok ()
  | f :: fs =>
    match env.detect f with
    | none => Except.error ("The format of " ++ f ++ " is unsupported.")
    | some m2 =>
      if m2 = m then check_rest env m fs
      else Except.error ("The format of " ++ f ++ " is different.")

/-- `get_all_mime_type` (lines 63-83): the shared mime type of the batch,
or the `ConversionFailedException` cause. The empty batch is excluded by
the `assert` (and by `main`'s zero-files check). -/
def get_all_mime_type (env : Env) : List String → Except String Mime
  | [] => Except.error "assertion failed: empty batch"
  | f :: fs =>
    match env.detect f with
    | none => Except.error ("The format of " ++ f ++ " is unsupported.")
    | some m =>
      match check_rest env m fs with
      | Except.ok _ => Except.ok m
      | Except.error e => Except.error e

/-- `calculate_gain` (lines 121-127) with the per-format tool dispatch
(lines 86-118): validate batch homogeneity, then invoke the single gain
tool once over the whole batch; a non-zero tool exit raises
"Calculating gain is failed.". -/
def calculate_gain (env : Env) (all_source_files : List String) :
    List Event × Except String Unit :=
  match get_all_mime_type env all_source_files with
  | Except.error e => ([], Except.error e)
  | Except.ok m =>
    ([Event.gainTool m all_source_files],
      if env.gainOk m then Except.ok () else Except.error "Calculating gain is failed.")

/-- The unique temporary wave path of a job (`tempfile.NamedTemporaryFile`;
modelled as a function of the source path, which keeps it unique per job). -/
def tempWavePath (src : String) : String := src ++ ".wav"

/-- `convert_wave_to_mp3` (lines 201-214): one lame encode pass. -/
def convert_wave_to_mp3 (env : Env) (wave_file_path mp3_file_path : String) :
    List Event × Except String Unit :=
  if env.encodeOk wave_file_path then ([Event.encode mp3_file_path], Except.ok ())
  else ([Event.encode mp3_file_path], Except.error "Conversion from wave to MP3 is failed.")

/-- The `try: convert_wave_to_mp3 ... finally: os.remove(wave_file_path)`
block shared by the Ogg Vorbis and Flac strategies. -/
def withTempCleanup (w : String) (r : List Event × Except String Unit) :
    List Event × Except String Unit :=
  (r.1 ++ [Event.removeTemp w], r.2)

/-- `convert_ogg_vorbis_to_mp3` (lines 217-237): decode with ogg123 (on
failure remove the temp file and raise), encode with the temp file removed
on both encode outcomes, then translate the tags from the source. -/
def convert_ogg_vorbis_to_mp3 (env : Env) (src dst : String) :
    List Event × Except String Unit :=
  let w := tempWavePath src
  if env.decodeOk src then
    let enc := withTempCleanup w (convert_wave_to_mp3 env w dst)
    match enc.2 with
    | Except.ok _ => (Event.decodeOgg src :: (enc.1 ++ [Event.tagCopy src dst]), Except.ok ())
    | Except.error e => (Event.decodeOgg src :: enc.1, Except.error e)
  else
    ([Event.decodeOgg src, Event.removeTemp w],
      Except.error "Conversion from Ogg Vorbis to wave is failed.")

/-- `convert_flac_to_mp3` (lines 240-266): same shape as the Ogg Vorbis
strategy with the flac decoder (which applies the replay gain). -/
def convert_flac_to_mp3 (env : Env) (src dst : String) :
    List Event × Except String Unit :=
  let w := tempWavePath src
  if env.decodeOk src then
    let enc := withTempCleanup w (convert_wave_to_mp3 env w dst)
    match enc.2 with
    | Except.ok _ => (Event.decodeFlac src :: (enc.1 ++ [Event.tagCopy src dst]), Except.ok ())
    | Except.error e => (Event.decodeFlac src :: enc.1, Except.error e)
  else
    ([Event.decodeFlac src, Event.removeTemp w],
      Except.error "Conversion from Flac to wave is failed.")

/-- `convert_mp3_to_mp3` (lines 269-281): a single lame pass from source
to destination, no temp file and no tag translation afterwards. -/
def convert_mp3_to_mp3 (env : Env) (src dst : String) :
    List Event × Except String Unit :=
  if env.encodeOk src then ([Event.encode dst], Except.ok ())
  else ([Event.encode dst], Except.error "Conversion from wave to MP3 is failed.")

/-- `convert_to_mp3` (lines 291-299): per-file strategy dispatch on the
independently re-detected mime type. -/
def convert_to_mp3 (env : Env) (src dst : String) : List Event × Except String Unit :=
  match env.detect src with
  | some Mime.oggVorbis => convert_ogg_vorbis_to_mp3 env src dst
  | some Mime.flac => convert_flac_to_mp3 env src dst
  | some Mime.mp3 => convert_mp3_to_mp3 env src dst
  | none => ([], Except.error (src ++ " is an unsupported format."))

/-- One worker job (`run_converting_task`, lines 308-311) together with the
per-future outcome logging of `convert_for_itunes` (lines 329-337): a
`ConversionFailedException` is caught at the job boundary and logged. -/
def run_job (env : Env) (output_directory src : String) : List Event :=
  let dst := get_mp3_file_path src output_directory
  match convert_to_mp3 env src dst with
  | (evs, Except.ok _) => evs ++ [Event.logSuccess src]
  | (evs, Except.error e) => evs ++ [Event.logFailure src e]

/-- `convert_for_itunes` (lines 314-338): create the output directory,
run gain calculation (whose exception propagates), then run one job per
source file, logging each outcome.  Job outcomes are independent of
completion order, so jobs are listed in submission order. -/
def convert_for_itunes (env : Env) (all_source_files : List String)
    (output_directory : String) : List Event × Except String Unit :=
  match calculate_gain env all_source_files with
  | (gevs, Except.error e) => (Event.mkdirOutput :: gevs, Except.error e)
  | (gevs, Except.ok _) =>
    (Event.mkdirOutput ::
      (gevs ++ (all_source_files.map (run_job env output_directory)).flatten),
      Except.ok ())

/-- The per-file outcomes a run logs, read off the trace: `(file, none)`
is a Success, `(file, some cause)` a Failure. -/
def batch_outcomes (env : Env) (all_source_files : List String)
    (output_directory : String) : List (String × Option String) :=
  ((convert_for_itunes env all_source_files output_directory).1).filterMap Event.outcomeOf

/-- Result of one process run of `main` (lines 346-384). -/
structure MainResult where
  exitCode : Nat
  trace : List Event
  loggedError : Option String
deriving DecidableEq

/-- `main` (lines 346-384) after argument parsing: filter the paths, fail
with exit status 1 when no source file remains or one is missing or the
output path is a file; otherwise run the pipeline, catching (and only
logging) a propagating `ConversionFailedException` — the process then
still exits with status 0. -/
def main_run (env : Env) (isFile : String → Bool) (outputIsFile : Bool)
    (paths : List String) (output_directory : String) : MainResult :=
  let source_files := filter_paths paths
  if source_files.isEmpty || !(source_files.all isFile) then
    ⟨1, [], some "The source files are not found."⟩
  else if outputIsFile then
    ⟨1, [], some "The output directory is a file."⟩
  else
    match convert_for_itunes env source_files output_directory with
    | (tr, Except.ok _) => ⟨0, tr, none⟩
    | (tr, Except.error e) => ⟨0, tr, some e⟩


/-! ## Tag translation lemmas -/

/-- A skipped conditional add leaves the frame map unchanged. -/
theorem condAdd_false (k : FrameKey) (f : Frame) (m : List (FrameKey × Frame)) :
    condAdd false k f m = m := rfl

/-- A conditional add for a different key does not affect a lookup. -/
theorem findFrame_condAdd_ne (c : Bool) (k2 k : FrameKey) (f : Frame)
    (m : List (FrameKey × Frame)) (h : k2 ≠ k) :
    findFrame (condAdd c k2 f m) k = findFrame m k := by
  cases c <;> simp [condAdd, findFrame, h]

/-- A performed add is what a lookup of its key finds. -/
theorem findFrame_condAdd_self (k : FrameKey) (f : Frame) (m : List (FrameKey × Frame)) :
    findFrame (condAdd true k f m) k = some f := by
  simp [condAdd, findFrame]

/-- The comment/description `if/elif` writes only COMM frames, so it does
not affect lookups of any other key. -/
theorem findFrame_commIte_ne (c d : Bool) (f g : Frame) (m : List (FrameKey × Frame))
    (k : FrameKey) (h : FrameKey.COMM "eng" ≠ k) :
    findFrame
      (if c then (FrameKey.COMM "eng", f) :: m
       else if d then (FrameKey.COMM "eng", g) :: m else m) k = findFrame m k := by
  cases c <;> cases d <;> simp [findFrame, h]

/-! ## C1: BandOrOrchestra (TPE2) alias precedence -/

/-- Source tags carrying both album-artist aliases with different values. -/
def tagsBothAliases : SourceTags :=
  ⟨[("album artist", ["A"]), ("albumartist", ["B"])]⟩

/-- C1 counterexample: with `album artist` = ["A"] and `albumartist` =
["B"] both present, the destination TPE2 frame holds ["B"], the
`albumartist` value — not the `album artist` value ["A"] the claim
requires: the second `id3.add` call (line 147) overwrites the first
(line 145) because both frames share the hash key TPE2. -/
theorem c1_counterexample :
    findFrame (copy_tags tagsBothAliases) FrameKey.TPE2
        = some ⟨TagEncoding.utf8, ["B"]⟩ ∧
      tagsBothAliases.getField "album artist" = ["A"] ∧ ["B"] ≠ ["A"] := by
  refine ⟨by decide, by decide, by decide⟩

/-- C1 amended: the precedence between the two aliases is last-write-wins:
when `albumartist` is present its value becomes the TPE2 frame (even if
`album artist` is also present); the `album artist` value is used only
when `albumartist` is absent. -/
theorem c1_tpe2_albumartist_wins (t : SourceTags) :
    (t.hasField "albumartist" = true →
      findFrame (copy_tags t) FrameKey.TPE2
        = some ⟨TagEncoding.utf8, t.getField "albumartist"⟩) ∧
    (t.hasField "albumartist" = false → t.hasField "album artist" = true →
      findFrame (copy_tags t) FrameKey.TPE2
        = some ⟨TagEncoding.utf8, t.getField "album artist"⟩) := by
  constructor
  · intro h
    simp [copy_tags, h, findFrame_condAdd_ne, findFrame_commIte_ne, findFrame_condAdd_self]
  · intro h1 h2
    simp [copy_tags, h1, h2, condAdd_false, findFrame_condAdd_ne, findFrame_commIte_ne,
      findFrame_condAdd_self]

/-- C1 witness: the amended precedence evaluated on concrete tag sets. -/
theorem c1_witness :
    findFrame (copy_tags tagsBothAliases) FrameKey.TPE2
        = some ⟨TagEncoding.utf8, ["B"]⟩ ∧
      findFrame (copy_tags (⟨[("album artist", ["A"])]⟩ : SourceTags)) FrameKey.TPE2
        = some ⟨TagEncoding.utf8, ["A"]⟩ := by
  constructor
  · have h := (c1_tpe2_albumartist_wins tagsBothAliases).1 (by decide)
    simpa using h
  · have h := (c1_tpe2_albumartist_wins ⟨[("album artist", ["A"])]⟩).2 (by decide) (by decide)
    simpa using h

/-! ## C3: TrackNumber (TRCK) copies the tracknumber field verbatim -/

/-- The tag set of the spec's worked example. -/
def tagsTrackExample : SourceTags :=
  ⟨[("title", ["Song"]), ("album", ["LP"]), ("artist", ["Band"]),
    ("tracknumber", ["3/12"])]⟩

/-- C3 counterexample: for `tracknumber` = "3/12" the destination TRCK
frame holds "3/12" unchanged — line 155 passes the field through with no
stripping of the "/12" suffix the claim requires. -/
theorem c3_counterexample :
    findFrame (copy_tags tagsTrackExample) FrameKey.TRCK
        = some ⟨TagEncoding.latin1, ["3/12"]⟩ ∧
      (some (⟨TagEncoding.latin1, ["3/12"]⟩ : Frame)
        ≠ some (⟨TagEncoding.latin1, ["3"]⟩ : Frame)) := by
  refine ⟨by decide, by decide⟩

/-- C3 amended: whenever the source has a `tracknumber` field, the
destination TRCK frame carries exactly that field's value, verbatim
(Latin-1 encoding), with no numeric-prefix extraction. -/
theorem c3_trck_verbatim (t : SourceTags) (h : t.hasField "tracknumber" = true) :
    findFrame (copy_tags t) FrameKey.TRCK
      = some ⟨TagEncoding.latin1, t.getField "tracknumber"⟩ := by
  simp [copy_tags, h, findFrame_condAdd_ne, findFrame_commIte_ne, findFrame_condAdd_self]

/-- C3 witness: the amended statement on the spec's worked example. -/
theorem c3_witness :
    findFrame (copy_tags tagsTrackExample) FrameKey.TRCK
      = some ⟨TagEncoding.latin1, ["3/12"]⟩ := by
  have h := c3_trck_verbatim tagsTrackExample (by decide)
  simpa using h

/-! ## Pipeline lemmas -/

/-- If the homogeneity loop accepts the rest of the batch, every file in
it detects to the expected mime type. -/
theorem check_rest_ok_detect (env : Env) (m : Mime) :
    ∀ fs : List String, check_rest env m fs = Except.ok () →
      ∀ f ∈ fs, env.detect f = some m := by
  intro fs
  induction fs with
  | nil => intro _ f hf; cases hf
  | cons g gs ih =>
    intro h f hf
    simp only [check_rest] at h
    cases hd : env.detect g with
    | none => rw [hd] at h; cases h
    | some m2 =>
      rw [hd] at h
      simp only [] at h
      by_cases hm : m2 = m
      · rw [if_pos hm] at h
        cases hf with
        | head => rw [hd, hm]
        | tail _ hf2 => exact ih h f hf2
      · rw [if_neg hm] at h; cases h

/-- If `get_all_mime_type` returns a mime type, every file of the batch
detects to exactly that type. -/
theorem get_all_ok_detect (env : Env) (files : List String) (m : Mime)
    (h : get_all_mime_type env files = Except.ok m) :
    ∀ f ∈ files, env.detect f = some m := by
  cases files with
  | nil => cases h
  | cons g gs =>
    simp only [get_all_mime_type] at h
    cases hd : env.detect g with
    | none => rw [hd] at h; cases h
    | some m0 =>
      rw [hd] at h
      simp only [] at h
      cases hc : check_rest env m0 gs with
      | ok u => rw [hc] at h
                cases u
                simp only [] at h
                injection h with h2
                subst h2
                intro f hf
                cases hf with
                | head => exact hd
                | tail _ hf2 => exact check_rest_ok_detect env m0 gs hc f hf2
      | error e => rw [hc] at h; cases h

/-- Every event of the gain-calculation step is the gain-tool invocation. -/
theorem calculate_gain_events (env : Env) (files : List String) :
    ∀ ev ∈ (calculate_gain env files).1, ev.isGainTool = true := by
  unfold calculate_gain
  cases h : get_all_mime_type env files with
  | error e => intro ev hev; cases hev
  | ok m =>
    intro ev hev
    simp only [List.mem_singleton] at hev
    rw [hev]
    rfl

/-! ## C7: mixed-format batches are rejected before gain and transcode -/

/-- C7: if two files of the batch do not share one detected format, the
run's trace is just the output-directory creation: the gain tool is never
invoked and the transcode phase never starts; the batch is rejected with
a propagating failure cause. -/
theorem c7_mixed_rejected (env : Env) (files : List String) (output_directory : String)
    (f1 f2 : String) (h1 : f1 ∈ files) (h2 : f2 ∈ files)
    (hne : env.detect f1 ≠ env.detect f2) :
    (convert_for_itunes env files output_directory).1 = [Event.mkdirOutput] ∧
      ∃ e, (convert_for_itunes env files output_directory).2 = Except.error e := by
  have hga : ∀ m, get_all_mime_type env files ≠ Except.ok m := by
    intro m hok
    exact hne (by rw [get_all_ok_detect env files m hok f1 h1,
      get_all_ok_detect env files m hok f2 h2])
  obtain ⟨e, he⟩ : ∃ e, get_all_mime_type env files = Except.error e := by
    cases hg : get_all_mime_type env files with
    | error e => exact ⟨e, rfl⟩
    | ok m => exact absurd hg (hga m)
  constructor
  · unfold convert_for_itunes calculate_gain
    rw [he]
  · refine ⟨e, ?_⟩
    unfold convert_for_itunes calculate_gain
    rw [he]

/-- A two-file batch with differing detected formats. -/
def envMixed : Env :=
  ⟨fun s => if s = "/a.ogg" then some Mime.oggVorbis
            else if s = "/b.flac" then some Mime.flac else none,
    fun _ => true, fun _ => true, fun _ => true⟩

/-- C7 witness: the mixed Ogg-Vorbis/Flac batch produces only the
directory-creation event. -/
theorem c7_witness :
    (convert_for_itunes envMixed ["/a.ogg", "/b.flac"] "/out").1 = [Event.mkdirOutput] ∧
      ∃ e, (convert_for_itunes envMixed ["/a.ogg", "/b.flac"] "/out").2 = Except.error e :=
  c7_mixed_rejected envMixed ["/a.ogg", "/b.flac"] "/out" "/a.ogg" "/b.flac"
    (by decide) (by decide) (by decide)

/-- Normal form of the Ogg Vorbis strategy: its three exit paths. -/
theorem ogg_cases (env : Env) (src dst : String) :
    convert_ogg_vorbis_to_mp3 env src dst =
      if env.decodeOk src then
        if env.encodeOk (tempWavePath src) then
          ([Event.decodeOgg src, Event.encode dst, Event.removeTemp (tempWavePath src),
            Event.tagCopy src dst], Except.ok ())
        else
          ([Event.decodeOgg src, Event.encode dst, Event.removeTemp (tempWavePath src)],
            Except.error "Conversion from wave to MP3 is failed.")
      else
        ([Event.decodeOgg src, Event.removeTemp (tempWavePath src)],
          Except.error "Conversion from Ogg Vorbis to wave is failed.") := by
  unfold convert_ogg_vorbis_to_mp3 withTempCleanup convert_wave_to_mp3
  by_cases hd : env.decodeOk src = true <;>
    by_cases he : env.encodeOk (tempWavePath src) = true <;>
      simp [hd, he]

/-- Normal form of the Flac strategy: its three exit paths. -/
theorem flac_cases (env : Env) (src dst : String) :
    convert_flac_to_mp3 env src dst =
      if env.decodeOk src then
        if env.encodeOk (tempWavePath src) then
          ([Event.decodeFlac src, Event.encode dst, Event.removeTemp (tempWavePath src),
            Event.tagCopy src dst], Except.ok ())
        else
          ([Event.decodeFlac src, Event.encode dst, Event.removeTemp (tempWavePath src)],
            Except.error "Conversion from wave to MP3 is failed.")
      else
        ([Event.decodeFlac src, Event.removeTemp (tempWavePath src)],
          Except.error "Conversion from Flac to wave is failed.") := by
  unfold convert_flac_to_mp3 withTempCleanup convert_wave_to_mp3
  by_cases hd : env.decodeOk src = true <;>
    by_cases he : env.encodeOk (tempWavePath src) = true <;>
      simp [hd, he]

/-- No event of a per-file conversion belongs to the pre-transcode phase. -/
theorem convert_to_mp3_events (env : Env) (src dst : String) :
    ∀ ev ∈ (convert_to_mp3 env src dst).1, ev.isPrePhase = false := by
  unfold convert_to_mp3
  cases hdet : env.detect src with
  | none => intro ev hev; cases hev
  | some m =>
    cases m
    · rw [ogg_cases]
      split_ifs <;> simp [Event.isPrePhase]
    · rw [flac_cases]
      split_ifs <;> simp [Event.isPrePhase]
    · unfold convert_mp3_to_mp3
      split_ifs <;> simp [Event.isPrePhase]

/-- No event of a worker job belongs to the pre-transcode phase. -/
theorem run_job_events (env : Env) (d f : String) :
    ∀ ev ∈ run_job env d f, ev.isPrePhase = false := by
  simp only [run_job]
  cases hc : convert_to_mp3 env f (get_mp3_file_path f d) with
  | mk evs res =>
    cases res with
    | ok u =>
      intro ev hev
      rcases List.mem_append.1 (show ev ∈ evs ++ [Event.logSuccess f] from hev) with h1 | h2
      · exact convert_to_mp3_events env f (get_mp3_file_path f d) ev (by rw [hc]; exact h1)
      · simp only [List.mem_singleton] at h2
        rw [h2]; rfl
    | error e =>
      intro ev hev
      rcases List.mem_append.1 (show ev ∈ evs ++ [Event.logFailure f e] from hev) with h1 | h2
      · exact convert_to_mp3_events env f (get_mp3_file_path f d) ev (by rw [hc]; exact h1)
      · simp only [List.mem_singleton] at h2
        rw [h2]; rfl

/-! ## C6: output directory creation versus gain calculation -/

/-- An all-Ogg-Vorbis environment whose gain tool exits non-zero. -/
def envGainFail : Env :=
  ⟨fun _ => some Mime.oggVorbis, fun _ => false, fun _ => true, fun _ => true⟩

/-- C6 counterexample: in a run that aborts during the gain phase (the
gain tool exits non-zero), the output directory has already been created:
`os.makedirs` (line 315) runs before `calculate_gain` (line 318), so the
creation event is in the trace — refuting both halves of the claim. -/
theorem c6_counterexample :
    (convert_for_itunes envGainFail ["/a.ogg"] "/out").2
        = Except.error "Calculating gain is failed." ∧
      Event.mkdirOutput ∈ (convert_for_itunes envGainFail ["/a.ogg"] "/out").1 := by
  refine ⟨rfl, by decide⟩

/-- C6 amended: in every run the output directory is created first,
before gain calculation: the trace starts with the creation event and no
later event is a directory creation — in particular, when the run aborts
during the gain phase the output directory has already been created. -/
theorem c6_mkdir_before_gain (env : Env) (files : List String) (output_directory : String) :
    ∃ rest, (convert_for_itunes env files output_directory).1 = Event.mkdirOutput :: rest ∧
      ∀ ev ∈ rest, ev ≠ Event.mkdirOutput := by
  unfold convert_for_itunes
  cases hg : calculate_gain env files with
  | mk gevs res =>
    cases res with
    | error e =>
      refine ⟨gevs, rfl, ?_⟩
      intro ev hev heq
      have h := calculate_gain_events env files ev (by rw [hg]; exact hev)
      rw [heq] at h
      cases h
    | ok u =>
      cases u
      refine ⟨gevs ++ (files.map (run_job env output_directory)).flatten, rfl, ?_⟩
      intro ev hev heq
      rcases List.mem_append.1 hev with h1 | h2
      · have h := calculate_gain_events env files ev (by rw [hg]; exact h1)
        rw [heq] at h
        cases h
      · rcases List.mem_flatten.1 h2 with ⟨l, hl, hevl⟩
        rcases List.mem_map.1 hl with ⟨f, _, hf⟩
        have h := run_job_events env output_directory f ev (by rw [hf]; exact hevl)
        rw [heq] at h
        cases h

/-! ## C2: which strategies run the tag-translation step -/

/-- An all-MP3 environment where every tool succeeds. -/
def envMp3Ok : Env :=
  ⟨fun _ => some Mime.mp3, fun _ => true, fun _ => true, fun _ => true⟩

/-- C2 counterexample: a successful Mp3→Mp3 conversion performs no
tag-translation step at all — `convert_mp3_to_mp3` (lines 269-281) runs
only the lame encode and never calls `copy_tags`. -/
theorem c2_counterexample :
    (convert_to_mp3 envMp3Ok "/a.mp3" "/out/a.mp3").2 = Except.ok () ∧
      ∀ ev ∈ (convert_to_mp3 envMp3Ok "/a.mp3" "/out/a.mp3").1, ev.isTagCopy = false := by
  refine ⟨rfl, by decide⟩

/-- C2 amended: after a successful transcode the tag-translation step runs
on the destination for the OggVorbis→Mp3 and Flac→Mp3 strategies, but the
Mp3→Mp3 strategy never performs tag translation. -/
theorem c2_tag_translation (env : Env) (src dst : String) :
    ((convert_ogg_vorbis_to_mp3 env src dst).2 = Except.ok () →
      Event.tagCopy src dst ∈ (convert_ogg_vorbis_to_mp3 env src dst).1) ∧
    ((convert_flac_to_mp3 env src dst).2 = Except.ok () →
      Event.tagCopy src dst ∈ (convert_flac_to_mp3 env src dst).1) ∧
    (∀ ev ∈ (convert_mp3_to_mp3 env src dst).1, ev.isTagCopy = false) := by
  refine ⟨?_, ?_, ?_⟩
  · rw [ogg_cases]
    split_ifs with hd he
    · intro _; simp
    · intro h; simp at h
    · intro h; simp at h
  · rw [flac_cases]
    split_ifs with hd he
    · intro _; simp
    · intro h; simp at h
    · intro h; simp at h
  · unfold convert_mp3_to_mp3
    split_ifs <;> simp [Event.isTagCopy]

/-- An all-Ogg-Vorbis environment where every tool succeeds. -/
def envAllOk : Env :=
  ⟨fun _ => some Mime.oggVorbis, fun _ => true, fun _ => true, fun _ => true⟩

/-- C2 witness: the amended statement evaluated on concrete conversions. -/
theorem c2_witness :
    Event.tagCopy "/a.ogg" "/out/a.mp3"
        ∈ (convert_ogg_vorbis_to_mp3 envAllOk "/a.ogg" "/out/a.mp3").1 ∧
      Event.tagCopy "/b.flac" "/out/b.mp3"
        ∈ (convert_flac_to_mp3 envAllOk "/b.flac" "/out/b.mp3").1 ∧
      ∀ ev ∈ (convert_mp3_to_mp3 envAllOk "/c.mp3" "/out/c.mp3").1, ev.isTagCopy = false :=
  ⟨(c2_tag_translation envAllOk "/a.ogg" "/out/a.mp3").1 rfl,
    (c2_tag_translation envAllOk "/b.flac" "/out/b.mp3").2.1 rfl,
    (c2_tag_translation envAllOk "/c.mp3" "/out/c.mp3").2.2⟩

/-! ## C8: the temporary decode file is removed on every exit path -/

/-- C8: for the OggVorbis→Mp3 and Flac→Mp3 strategies, whatever the
environment does (success, decode failure or encode failure), the removal
of the job's temporary wave file is in the strategy's trace before it
returns or its failure propagates. -/
theorem c8_temp_removed (env : Env) (src dst : String) :
    Event.removeTemp (tempWavePath src) ∈ (convert_ogg_vorbis_to_mp3 env src dst).1 ∧
      Event.removeTemp (tempWavePath src) ∈ (convert_flac_to_mp3 env src dst).1 := by
  constructor
  · rw [ogg_cases]
    split_ifs <;> simp
  · rw [flac_cases]
    split_ifs <;> simp

/-! ## C4: effect of a gain-calculation failure on the batch and the exit status -/

/-- An event that is the gain-tool invocation is a pre-transcode event. -/
theorem isPrePhase_of_isGainTool (ev : Event) (h : ev.isGainTool = true) :
    ev.isPrePhase = true := by
  cases ev <;> simp_all [Event.isGainTool, Event.isPrePhase]

/-- When gain calculation fails, the run is the directory creation plus
the gain events, and the failure propagates. -/
theorem convert_for_itunes_gain_error (env : Env) (files : List String) (d e : String)
    (h : (calculate_gain env files).2 = Except.error e) :
    convert_for_itunes env files d
      = (Event.mkdirOutput :: (calculate_gain env files).1, Except.error e) := by
  unfold convert_for_itunes
  cases hg : calculate_gain env files with
  | mk gevs res =>
    rw [hg] at h
    cases res with
    | ok u =>
      cases u
      exact Except.noConfusion (show (Except.ok () : Except String Unit) = Except.error e from h)
    | error e2 =>
      have h2 : (Except.error e2 : Except String Unit) = Except.error e := h
      injection h2 with h3
      subst h3
      rfl

/-- C4 counterexample: with a valid one-file Ogg Vorbis batch whose gain
tool exits non-zero, the batch is aborted (the cause is logged, no file
converts) yet the process exit status is 0, not non-zero as claimed:
`main` (lines 377-381) catches the exception, logs it and returns
normally. -/
theorem c4_counterexample :
    (main_run envGainFail (fun _ => true) false ["/a.ogg"] "/out").exitCode = 0 ∧
      (main_run envGainFail (fun _ => true) false ["/a.ogg"] "/out").loggedError
        = some "Calculating gain is failed." ∧
      ∀ ev ∈ (main_run envGainFail (fun _ => true) false ["/a.ogg"] "/out").trace,
        ev.isLogSuccess = false := by
  refine ⟨rfl, rfl, by decide⟩

/-- C4 amended: whenever gain calculation fails (for a validated batch),
the whole batch is aborted with zero files converted — every trace event
belongs to the pre-transcode phase — and the cause is logged, but the
process exit status is 0; a non-zero exit happens only for validation
failures. -/
theorem c4_gain_failure_exit_zero (env : Env) (isFile : String → Bool)
    (paths : List String) (output_directory e : String)
    (h1 : (filter_paths paths).isEmpty = false)
    (h2 : (filter_paths paths).all isFile = true)
    (h3 : (calculate_gain env (filter_paths paths)).2 = Except.error e) :
    (main_run env isFile false paths output_directory).exitCode = 0 ∧
      (main_run env isFile false paths output_directory).loggedError = some e ∧
      ∀ ev ∈ (main_run env isFile false paths output_directory).trace,
        ev.isPrePhase = true := by
  have hconv := convert_for_itunes_gain_error env (filter_paths paths) output_directory e h3
  have hmain : main_run env isFile false paths output_directory
      = ⟨0, Event.mkdirOutput :: (calculate_gain env (filter_paths paths)).1, some e⟩ := by
    simp only [main_run, h1, h2, hconv]
    rfl
  rw [hmain]
  refine ⟨rfl, rfl, ?_⟩
  intro ev hev
  cases hev with
  | head => rfl
  | tail _ h4 =>
    exact isPrePhase_of_isGainTool ev (calculate_gain_events env (filter_paths paths) ev h4)

/-- C4 witness: the amended statement on the concrete failing-gain run. -/
theorem c4_witness :
    (main_run envGainFail (fun _ => true) false ["/a.ogg"] "/out").exitCode = 0 ∧
      (main_run envGainFail (fun _ => true) false ["/a.ogg"] "/out").loggedError
        = some "Calculating gain is failed." ∧
      ∀ ev ∈ (main_run envGainFail (fun _ => true) false ["/a.ogg"] "/out").trace,
        ev.isPrePhase = true :=
  c4_gain_failure_exit_zero envGainFail (fun _ => true) ["/a.ogg"] "/out"
    "Calculating gain is failed." rfl rfl rfl

/-! ## C5: fault isolation between files of one batch -/

/-- A batch with one undetectable (corrupt/unsupported) file and one
valid Ogg Vorbis file, all external tools succeeding. -/
def envBadGood : Env :=
  ⟨fun s => if s = "/good.ogg" then some Mime.oggVorbis else none,
    fun _ => true, fun _ => true, fun _ => true⟩

/-- C5 counterexample: with corrupt file "/bad" and valid file
"/good.ogg" in one batch, the run produces no per-file outcome at all —
in particular "/good.ogg" does not get a Success outcome: the corrupt
file already makes `get_all_mime_type` raise inside `calculate_gain`,
aborting the entire batch before any job is submitted. -/
theorem c5_counterexample :
    envBadGood.detect "/bad" = none ∧
      envBadGood.detect "/good.ogg" = some Mime.oggVorbis ∧
      batch_outcomes envBadGood ["/bad", "/good.ogg"] "/out" = [] ∧
      (convert_for_itunes envBadGood ["/bad", "/good.ogg"] "/out").2
        = Except.error "The format of /bad is unsupported." := by
  refine ⟨rfl, rfl, rfl, rfl⟩

/-- C5 amended: fault isolation holds only between files that all pass
the batch-wide format check: a corrupt/unsupported file aborts the whole
batch during the gain phase, but when the batch is homogeneous and the
gain step succeeds, a per-file transcode failure of file A (here its
decode tool exiting non-zero) is logged as A's Failure while B's
conversion still gets its Success outcome. -/
theorem c5_isolation_after_gain (env : Env) (output_directory A B : String)
    (hA : env.detect A = some Mime.oggVorbis) (hB : env.detect B = some Mime.oggVorbis)
    (hg : env.gainOk Mime.oggVorbis = true)
    (hdA : env.decodeOk A = false) (hdB : env.decodeOk B = true)
    (heB : env.encodeOk (tempWavePath B) = true) :
    batch_outcomes env [A, B] output_directory
      = [(A, some "Conversion from Ogg Vorbis to wave is failed."), (B, none)] := by
  simp [batch_outcomes, convert_for_itunes, calculate_gain, get_all_mime_type, check_rest,
    run_job, convert_to_mp3, ogg_cases, hA, hB, hg, hdA, hdB, heB, Event.outcomeOf]

/-- An all-Ogg batch whose decode tool fails exactly on "/a.ogg". -/
def envIsolation : Env :=
  ⟨fun _ => some Mime.oggVorbis, fun _ => true, fun s => s != "/a.ogg", fun _ => true⟩

/-- C5 witness: the amended statement on a concrete two-file batch. -/
theorem c5_witness :
    batch_outcomes envIsolation ["/a.ogg", "/b.ogg"] "/out"
      = [("/a.ogg", some "Conversion from Ogg Vorbis to wave is failed."), ("/b.ogg", none)] :=
  c5_isolation_after_gain envIsolation "/out" "/a.ogg" "/b.ogg" rfl rfl rfl (by decide)
    (by decide) rfl

/-! ## C9: shape of the destination path -/

/-- A POSIX basename contains no path separator. -/
theorem mem_basenameL (l : List Char) (c : Char) (h : c ∈ basenameL l) : c ≠ '/' := by
  unfold basenameL at h
  rw [List.mem_reverse] at h
  have h2 := List.mem_takeWhile_imp h
  simpa using h2

/-- The root part of a splitext is made of characters of the input. -/
theorem splitextBase_fst_subset (b : List Char) : (splitextBase b).1 ⊆ b := by
  simp only [splitextBase]
  split_ifs
  · exact fun _ h => h
  · exact fun _ h => h
  · exact List.take_subset _ b

/-- C9: for a non-empty output directory that does not end in '/', the
destination path is exactly the output directory, one separator, and the
source basename with its extension replaced by ".mp3" — and that final
file name contains no separator, so the file sits flat in the output
directory. -/
theorem c9_output_path (src outDir : String)
    (h1 : outDir.data ≠ []) (h2 : outDir.data.getLast? ≠ some '/') :
    (get_mp3_file_path src outDir).data
        = outDir.data ++ '/' :: ((splitextBase (basenameL src.data)).1 ++ ".mp3".data) ∧
      ∀ c ∈ (splitextBase (basenameL src.data)).1 ++ ".mp3".data, c ≠ '/' := by
  have hname : ∀ c ∈ (splitextBase (basenameL src.data)).1 ++ ".mp3".data, c ≠ '/' := by
    intro c hc
    rcases List.mem_append.1 hc with hL | hR
    · exact mem_basenameL src.data c (splitextBase_fst_subset _ hL)
    · have h3 : c ∈ ['.', 'm', 'p', '3'] := hR
      simp only [List.mem_cons, List.not_mem_nil, or_false] at h3
      rcases h3 with rfl | rfl | rfl | rfl <;> decide
  refine ⟨?_, hname⟩
  show joinL outDir.data ((splitextBase (basenameL src.data)).1 ++ ".mp3".data)
      = outDir.data ++ '/' :: ((splitextBase (basenameL src.data)).1 ++ ".mp3".data)
  have hhead : ¬(((splitextBase (basenameL src.data)).1 ++ ".mp3".data).head? = some '/') := by
    intro hh
    exact hname '/' (List.mem_of_mem_head? hh) rfl
  unfold joinL
  rw [if_neg hhead, if_neg]
  rintro (h3 | h3)
  · exact h1 h3
  · exact h2 h3

/-- C9 witness: the spec's worked example, via the general theorem and by
direct evaluation. -/
theorem c9_witness :
    ((get_mp3_file_path "/x/Track 01.flac" "/out").data
        = "/out".data ++ '/' ::
            ((splitextBase (basenameL "/x/Track 01.flac".data)).1 ++ ".mp3".data) ∧
      ∀ c ∈ (splitextBase (basenameL "/x/Track 01.flac".data)).1 ++ ".mp3".data, c ≠ '/') ∧
      get_mp3_file_path "/x/Track 01.flac" "/out" = "/out/Track 01.mp3" :=
  ⟨c9_output_path "/x/Track 01.flac" "/out" (by decide) (by decide), by decide⟩

/-! ## C10: extension filtering happens before the existence check -/

/-- C10: a path with an excluded (case-insensitively matched) extension is
dropped by `filter_paths` before `main` checks existence, so the whole run
— including whether it aborts with "The source files are not found." — is
exactly what it would be had the path never been supplied, for every
existence predicate (in particular when the file does not exist). -/
theorem c10_excluded_is_inert (paths1 paths2 : List String) (p : String)
    (env : Env) (isFile : String → Bool) (outputIsFile : Bool) (output_directory : String)
    (h : EXCLUDING_FILE_EXTENSIONS.contains (lowerExt p) = true) :
    filter_paths (paths1 ++ p :: paths2) = filter_paths (paths1 ++ paths2) ∧
      main_run env isFile outputIsFile (paths1 ++ p :: paths2) output_directory
        = main_run env isFile outputIsFile (paths1 ++ paths2) output_directory := by
  have hfp : filter_paths (paths1 ++ p :: paths2) = filter_paths (paths1 ++ paths2) := by
    have hmem : lowerExt p ∈ EXCLUDING_FILE_EXTENSIONS := by
      simpa using h
    unfold filter_paths
    rw [List.filter_append, List.filter_append, List.filter_cons]
    simp [hmem]
  exact ⟨hfp, by simp only [main_run, hfp]⟩

/-- C10 witness: a non-existent ".TXT" path is dropped and the run with it
is identical to the run without it. -/
theorem c10_witness :
    filter_paths ["/a.flac", "/missing.TXT"] = filter_paths ["/a.flac"] ∧
      main_run envAllOk (fun s => s == "/a.flac") false ["/a.flac", "/missing.TXT"] "/out"
        = main_run envAllOk (fun s => s == "/a.flac") false ["/a.flac"] "/out" :=
  c10_excluded_is_inert ["/a.flac"] [] "/missing.TXT" envAllOk
    (fun s => s == "/a.flac") false "/out" (by decide)
